import Mathlib

/-!
Verification of the ledger and authorization engine of the digital-wallet
Streamlit application (`app.py`).  The backend logic handlers of section S7
of the source are embedded as pure functions over an explicit account store;
Streamlit presentation calls (`st.error`, `st.success`, `st.rerun`, charts,
CSS) are modelled only through the returned `Status` value.  Python `float`
amounts and wall-clock times are modelled as exact rationals.  The
wall-clock-derived `id` and `timestamp` fields of transactions are examined
by no claim and are omitted; the `id` of a payment request is kept (the
request-resolution loop matches on it) and is passed explicitly where the
source derives it from the clock.
-/

namespace Wallet

/-!  Exact rational arithmetic.  The library's `Rat.add`, `Rat.sub`,
`Rat.mul` and `Rat.inv` are marked irreducible, which blocks kernel
evaluation of concrete instances by `decide`; the embedding therefore
computes through `mkRat`, and the lemmas `qadd_eq`, `qsub_eq`, `qmul_eq`
and `qdivNat_eq` below identify these operations with the ordinary field
operations of `ℚ` for abstract reasoning. -/

/-- Exact rational addition (equals `a + b`, see `qadd_eq`). -/
def qadd (a b : ℚ) : ℚ := mkRat (a.num * b.den + b.num * a.den) (a.den * b.den)

/-- Exact rational subtraction (equals `a - b`, see `qsub_eq`). -/
def qsub (a b : ℚ) : ℚ := mkRat (a.num * b.den - b.num * a.den) (a.den * b.den)

/-- Exact rational multiplication (equals `a * b`, see `qmul_eq`). -/
def qmul (a b : ℚ) : ℚ := mkRat (a.num * b.num) (a.den * b.den)

/-- Exact division of a rational by a natural number (equals `a / n`,
see `qdivNat_eq`). -/
def qdivNat (a : ℚ) (n : ℕ) : ℚ := mkRat a.num (a.den * n)

/-- Floor of a rational: flooring integer division of the numerator by the
denominator. -/
def qfloor (q : ℚ) : ℤ := q.num.fdiv q.den

/-- Python `round` rounds half to even; `roundHalfEven` is that rounding to
an integer, phrased in integer arithmetic on the reduced fraction:
the fractional part `q - ⌊q⌋` is compared with `1/2` by comparing
`2 * (q.num - ⌊q⌋ * q.den)` with `q.den`. -/
def roundHalfEven (q : ℚ) : ℤ :=
  let n := qfloor q
  let twiceFrac := 2 * (q.num - n * q.den)
  if twiceFrac < (q.den : ℤ) then n
  else if (q.den : ℤ) < twiceFrac then n + 1
  else if n % 2 = 0 then n else n + 1

/-- Python `round(x, 2)` on an exact rational. -/
def round2 (q : ℚ) : ℚ := mkRat (roundHalfEven (qmul q 100)) 100

/-- Python `str.strip()`: drop leading and trailing whitespace (written on
the character list so that concrete instances evaluate; `String.trim` is
equivalent but built on non-reducing `Substring` primitives). -/
def pyStrip (s : String) : String :=
  ⟨((s.data.dropWhile Char.isWhitespace).reverse.dropWhile Char.isWhitespace).reverse⟩

/-- Source constant `LOCKOUT_DURATION_SECONDS = 60`. -/
def LOCKOUT_DURATION_SECONDS : ℚ := 60

/-- Source constant `MAX_LOGIN_ATTEMPTS = 3`. -/
def MAX_LOGIN_ATTEMPTS : ℕ := 3

/-- A transaction dictionary as built by `create_transaction_record`
(the clock-derived `id` and `timestamp` fields are omitted). -/
structure Txn where
  type : String
  amount : ℚ
  note : String
  category : Option String
  counterparty : String
deriving DecidableEq, Repr

/-- A payment-request dictionary as built by
`create_payment_request_record` (the clock-derived `timestamp` is omitted;
the `id` is kept and passed in explicitly). -/
structure PaymentRequest where
  id : String
  requester : String
  amount : ℚ
  note : String
  status : String
deriving DecidableEq, Repr

/-- One entry of `st.session_state.data["accounts"]`. -/
structure Account where
  pin : String
  balance : ℚ
  transactions : List Txn
  failed_attempts : ℕ
  locked_until : ℚ
  requests : List PaymentRequest
  display_name : String
deriving DecidableEq, Repr

/-- The accounts dictionary: username to account. -/
abbrev Store := String → Option Account

/-- In-place mutation of one account of the dictionary. -/
def updateAcc (s : Store) (u : String) (f : Account → Account) : Store :=
  fun v => if v = u then (s u).map f else s v

/-- Insertion of a (new) account into the dictionary. -/
def setAcc (s : Store) (u : String) (a : Account) : Store :=
  fun v => if v = u then some a else s v

/-- The user-visible outcome of a handler: success (`st.success` or a silent
return), one of the handled `st.error` or `st.warning` messages, or an
uncaught Python exception (`KeyError` on a missing dictionary key) escaping
the handler.  Numeric message parts are carried as payloads. -/
inductive Status where
  | ok
  | fault (key : String)
  | errUserNotFound
  | errLockedRemaining (secondsRemaining : ℤ)
  | errLockedNow
  | errWrongPinRemaining (attemptsRemaining : ℕ)
  | errIncorrectPin
  | errInsufficientFunds
  | errInsufficientBalance
  | errInvalidPayload
  | errInvalidFormat
  | errSelfPayment
  | errMissingFields
  | errUsernameTaken
  | errPinFormat
  | errPinMismatch
  | warnEmptyPayerSet
deriving DecidableEq, Repr

/-- The state of the accounts dictionary after a handler ran, together with
its user-visible status. -/
structure Outcome where
  state : Store
  status : Status

/-- Source `create_transaction_record` (S4): the amount is rounded to two
decimals and the note stripped of surrounding whitespace. -/
def create_transaction_record (txn_type : String) (amount : ℚ) (note : String)
    (category : Option String) (counterparty : String) : Txn :=
  { type := txn_type, amount := round2 amount, note := pyStrip note,
    category := category, counterparty := counterparty }

/-- Source `create_payment_request_record` (S4), with the clock-derived id
passed in explicitly. -/
def create_payment_request_record (id requester : String) (amount : ℚ)
    (note : String) : PaymentRequest :=
  { id := id, requester := requester, amount := round2 amount,
    note := pyStrip note, status := "pending" }

/-- Source `handle_login_attempt`, with `time.time()` passed as `now`.
The session-navigation side effects of a successful login are not part of
the account state and are dropped. -/
def handle_login_attempt (s : Store) (username pin : String) (now : ℚ) : Outcome :=
  match s username with
  | none => ⟨s, Status.errUserNotFound⟩
  | some user_acc =>
    if now < user_acc.locked_until then
      ⟨s, Status.errLockedRemaining (qfloor (qsub user_acc.locked_until now))⟩
    else if user_acc.pin = pin then
      ⟨updateAcc s username (fun a => { a with failed_attempts := 0 }), Status.ok⟩
    else
      let fa := user_acc.failed_attempts + 1
      if MAX_LOGIN_ATTEMPTS ≤ fa then
        ⟨updateAcc s username (fun a =>
           { a with failed_attempts := fa,
                    locked_until := qadd now LOCKOUT_DURATION_SECONDS }),
         Status.errLockedNow⟩
      else
        ⟨updateAcc s username (fun a => { a with failed_attempts := fa }),
         Status.errWrongPinRemaining (MAX_LOGIN_ATTEMPTS - fa)⟩

/-- Source `handle_account_creation`. -/
def handle_account_creation (s : Store) (username display_name pin1 pin2 : String)
    (initial_amount : ℚ) : Outcome :=
  if username = "" ∨ display_name = "" then ⟨s, Status.errMissingFields⟩
  else if (s username).isSome then ⟨s, Status.errUsernameTaken⟩
  else if ¬ (pin1.length = 4 ∧ pin1.data.all Char.isDigit) then ⟨s, Status.errPinFormat⟩
  else if pin1 ≠ pin2 then ⟨s, Status.errPinMismatch⟩
  else
    ⟨setAcc s username
      { pin := pin1, balance := initial_amount, display_name := display_name,
        transactions := [create_transaction_record "deposit" initial_amount
          "Initial deposit" none "self"],
        failed_attempts := 0, locked_until := 0, requests := [] },
     Status.ok⟩

/-- Source `handle_transfer`.  The mutations are applied in the source's
order: debit the sender, credit the receiver (a `KeyError` here escapes with
the sender already debited), append `transfer_out` on the sender, append
`transfer_in` on the receiver. -/
def handle_transfer (s : Store) (sender receiver : String) (amount : ℚ)
    (note category pin : String) : Outcome :=
  match s sender with
  | none => ⟨s, Status.fault sender⟩
  | some user_data =>
    if pin = user_data.pin then
      if user_data.balance < amount then ⟨s, Status.errInsufficientFunds⟩
      else
        let s1 := updateAcc s sender (fun a => { a with balance := qsub a.balance amount })
        match s1 receiver with
        | none => ⟨s1, Status.fault receiver⟩
        | some _ =>
          let s2 := updateAcc s1 receiver (fun a => { a with balance := qadd a.balance amount })
          let s3 := updateAcc s2 sender (fun a =>
            { a with transactions := a.transactions ++
                [create_transaction_record "transfer_out" amount note (some category) receiver] })
          let s4 := updateAcc s3 receiver (fun a =>
            { a with transactions := a.transactions ++
                [create_transaction_record "transfer_in" amount note none sender] })
          ⟨s4, Status.ok⟩
    else ⟨s, Status.errIncorrectPin⟩

/-- A decoded JSON value, as far as the QR payload needs it. -/
inductive JsonVal where
  | str (s : String)
  | num (q : ℚ)
  | null
deriving DecidableEq, Repr

/-- Python `payload.get(key)` on a decoded JSON object. -/
def jsonGet : List (String × JsonVal) → String → Option JsonVal
  | [], _ => none
  | (k, v) :: rest, key => if k = key then some v else jsonGet rest key

/-- Python `float(x)`.  A JSON number converts exactly; `None` raises
`ValueError`; numeric-string parsing is not modelled (no claim and no
payload produced by the source exercises it, a non-numeric string also
raises `ValueError`). -/
def pyFloat : JsonVal → Option ℚ
  | JsonVal.num q => some q
  | _ => none

/-- Python truthiness of `payload.get("payee")` inside `all([payee, ...])`. -/
def pyTruthy : Option JsonVal → Bool
  | none => false
  | some (JsonVal.str s) => s ≠ ""
  | some (JsonVal.num q) => q ≠ 0
  | some JsonVal.null => false

/-- Python `payee == payer` where `payee` came out of the payload and
`payer` is a username string. -/
def jsonEqStr : JsonVal → String → Bool
  | JsonVal.str s, u => s = u
  | _, _ => false

/-- A decoded payee usable as an accounts-dictionary key; a non-string
payee misses the dictionary (`KeyError`). -/
def jsonKey : JsonVal → Option String
  | JsonVal.str s => some s
  | _ => none

/-- Python `str(note)` on the decoded note value (only the string case is
produced by `generateQrPayload`; numeric printing is not modelled). -/
def pyStr : JsonVal → String
  | JsonVal.str s => s
  | JsonVal.num _ => ""
  | JsonVal.null => "None"

/-- The field-extraction step of `handle_qr_payment`:
`payload.get("payee")`, `float(payload.get("amount", 0))` and
`payload.get("note", "")`, in that order; a `none` middle component is the
`ValueError` of `float`. -/
def qrExtract (payload : List (String × JsonVal)) :
    Option JsonVal × Option ℚ × JsonVal :=
  (jsonGet payload "payee",
   pyFloat ((jsonGet payload "amount").getD (JsonVal.num 0)),
   (jsonGet payload "note").getD (JsonVal.str ""))

/-- The payload built by `handle_qr_generation`:
`json.dumps({"payee": user, "amount": amount, "note": note})`.  The JSON
text serialization is invertible on such objects, so the payload is
modelled as the decoded object itself. -/
def generateQrPayload (user : String) (amount : ℚ) (note : String) :
    List (String × JsonVal) :=
  [("payee", JsonVal.str user), ("amount", JsonVal.num amount),
   ("note", JsonVal.str note)]

/-- Source `handle_qr_payment`.  Checks in source order: payload validity
(`not all([payee, amount > 0])`), self-payment, insufficient funds, PIN;
then debit the payer, then look the payee up (a `KeyError` here escapes
with the payer already debited), credit the payee, append `qr_out` and
`qr_in`. -/
def handle_qr_payment (s : Store) (payer : String)
    (payload : List (String × JsonVal)) (category pin : String) : Outcome :=
  match s payer with
  | none => ⟨s, Status.fault payer⟩
  | some user_data =>
    match pyFloat ((jsonGet payload "amount").getD (JsonVal.num 0)) with
    | none => ⟨s, Status.errInvalidFormat⟩
    | some amount =>
      let payeeV := jsonGet payload "payee"
      let noteV := (jsonGet payload "note").getD (JsonVal.str "")
      if ¬ (pyTruthy payeeV = true ∧ 0 < amount) then ⟨s, Status.errInvalidPayload⟩
      else if jsonEqStr (payeeV.getD JsonVal.null) payer then ⟨s, Status.errSelfPayment⟩
      else if user_data.balance < amount then ⟨s, Status.errInsufficientFunds⟩
      else if pin ≠ user_data.pin then ⟨s, Status.errIncorrectPin⟩
      else
        let s1 := updateAcc s payer (fun a => { a with balance := qsub a.balance amount })
        match jsonKey (payeeV.getD JsonVal.null) with
        | none => ⟨s1, Status.fault "payee"⟩
        | some payee =>
          match s1 payee with
          | none => ⟨s1, Status.fault payee⟩
          | some _ =>
            let note := pyStr noteV
            let s2 := updateAcc s1 payee (fun a => { a with balance := qadd a.balance amount })
            let s3 := updateAcc s2 payer (fun a =>
              { a with transactions := a.transactions ++
                  [create_transaction_record "qr_out" amount note (some category) payee] })
            let s4 := updateAcc s3 payee (fun a =>
              { a with transactions := a.transactions ++
                  [create_transaction_record "qr_in" amount note none payer] })
            ⟨s4, Status.ok⟩

/-- The per-payer loop of `handle_bill_split`: append the request to each
selected user's list; a missing user is a `KeyError` escaping mid-loop. -/
def appendRequests (s : Store) (users : List String) (req : PaymentRequest) : Outcome :=
  match users with
  | [] => ⟨s, Status.ok⟩
  | u :: rest =>
    match s u with
    | none => ⟨s, Status.fault u⟩
    | some _ =>
      appendRequests
        (updateAcc s u (fun a => { a with requests := a.requests ++ [req] }))
        rest req

/-- Source `handle_bill_split`, with the clock-derived request id passed as
`reqId` (the source stamps each request with the current millisecond). -/
def handle_bill_split (s : Store) (requester : String) (total_amount : ℚ)
    (note : String) (users_to_split : List String) (reqId : String) : Outcome :=
  if users_to_split = [] then ⟨s, Status.warnEmptyPayerSet⟩
  else
    let num_people : ℕ := users_to_split.length + 1
    let split_amount := round2 (qdivNat total_amount num_people)
    appendRequests s users_to_split
      (create_payment_request_record reqId requester split_amount note)

/-- Source `handle_deposit`: no validation at all; the balance is increased
by the given amount unconditionally and one `deposit` transaction with
counterparty `"self"` is appended (`note or "Self Deposit"`). -/
def handle_deposit (s : Store) (user : String) (amount : ℚ) (note : String) : Outcome :=
  match s user with
  | none => ⟨s, Status.fault user⟩
  | some _ =>
    ⟨updateAcc s user (fun a =>
       { a with balance := qadd a.balance amount,
                transactions := a.transactions ++
                  [create_transaction_record "deposit" amount
                    (if note = "" then "Self Deposit" else note) none "self"] }),
     Status.ok⟩

/-- Source `handle_withdrawal`: PIN equality, then the funds check, then
debit and one `withdraw` transaction with counterparty `"cash"`. -/
def handle_withdrawal (s : Store) (user : String) (amount : ℚ)
    (category pin : String) : Outcome :=
  match s user with
  | none => ⟨s, Status.fault user⟩
  | some user_data =>
    if pin = user_data.pin then
      if user_data.balance < amount then ⟨s, Status.errInsufficientBalance⟩
      else
        ⟨updateAcc s user (fun a =>
           { a with balance := qsub a.balance amount,
                    transactions := a.transactions ++
                      [create_transaction_record "withdraw" amount
                        "Cash withdrawal" (some category) "cash"] }),
         Status.ok⟩
    else ⟨s, Status.errIncorrectPin⟩

/-- The status-update loop at the end of `handle_payment_request`: set the
status of the first request in the list with the given id. -/
def setStatusFirst (id status : String) : List PaymentRequest → List PaymentRequest
  | [] => []
  | r :: rest =>
    if r.id = id then { r with status := status } :: rest
    else r :: setStatusFirst id status rest

/-- Source `handle_payment_request`.  Note what the source does NOT do: it
never reads `request["status"]`, so an already-approved or already-declined
request is processed again exactly like a pending one.  On `"approved"`
with sufficient funds: debit the payer, credit the requester, append a
`transfer_out` (category `"Bills"`) and a `transfer_in`, then set the
stored request's status; with insufficient funds: error and return before
the status loop.  On any other decision: only the status loop runs. -/
def handle_payment_request (s : Store) (payer_username : String)
    (request : PaymentRequest) (new_status : String) : Outcome :=
  match s payer_username with
  | none => ⟨s, Status.fault payer_username⟩
  | some payer_data =>
    match s request.requester with
    | none => ⟨s, Status.fault request.requester⟩
    | some _ =>
      if new_status = "approved" then
        if request.amount ≤ payer_data.balance then
          let amount := request.amount
          let note := "Payment for: " ++ request.note
          let s1 := updateAcc s payer_username (fun a => { a with balance := qsub a.balance amount })
          let s2 := updateAcc s1 request.requester (fun a => { a with balance := qadd a.balance amount })
          let s3 := updateAcc s2 payer_username (fun a =>
            { a with transactions := a.transactions ++
                [create_transaction_record "transfer_out" amount note (some "Bills") request.requester] })
          let s4 := updateAcc s3 request.requester (fun a =>
            { a with transactions := a.transactions ++
                [create_transaction_record "transfer_in" amount note none payer_username] })
          ⟨updateAcc s4 payer_username (fun a =>
             { a with requests := setStatusFirst request.id new_status a.requests }),
           Status.ok⟩
        else ⟨s, Status.errInsufficientFunds⟩
      else
        ⟨updateAcc s payer_username (fun a =>
           { a with requests := setStatusFirst request.id new_status a.requests }),
         Status.ok⟩

/-- Initial mock account of `get_initial_mock_data`. -/
def aliceInit : Account :=
  { pin := "1111", balance := 830, transactions := [], failed_attempts := 0,
    locked_until := 0, requests := [], display_name := "Alice Wonderland" }

/-- Initial mock account of `get_initial_mock_data`. -/
def bobInit : Account :=
  { pin := "2222", balance := 625, transactions := [], failed_attempts := 0,
    locked_until := 0, requests := [], display_name := "Bob Builder" }

/-- Initial mock account of `get_initial_mock_data`. -/
def charlieInit : Account :=
  { pin := "3333", balance := 300, transactions := [], failed_attempts := 0,
    locked_until := 0, requests := [], display_name := "Charlie Chaplin" }

/-- Initial mock account of `get_initial_mock_data`. -/
def dishaInit : Account :=
  { pin := "4444", balance := 100, transactions := [], failed_attempts := 0,
    locked_until := 0, requests := [], display_name := "Disha Patani" }

/-- The accounts dictionary of `get_initial_mock_data`. -/
def walletInit : Store := fun u =>
  if u = "alice" then some aliceInit
  else if u = "bob" then some bobInit
  else if u = "charlie" then some charlieInit
  else if u = "disha" then some dishaInit
  else none

/-- Source `handle_pin_change`. -/
def handle_pin_change (s : Store) (user old_pin new_pin1 new_pin2 : String) : Outcome :=
  match s user with
  | none => ⟨s, Status.fault user⟩
  | some user_data =>
    if old_pin ≠ user_data.pin then ⟨s, Status.errIncorrectPin⟩
    else if ¬ (new_pin1.length = 4 ∧ new_pin1.data.all Char.isDigit) then
      ⟨s, Status.errPinFormat⟩
    else if new_pin1 ≠ new_pin2 then ⟨s, Status.errPinMismatch⟩
    else ⟨updateAcc s user (fun a => { a with pin := new_pin1 }), Status.ok⟩

/-- A payment request already resolved (`status = "approved"`), used to
exercise `handle_payment_request` on a non-pending request. -/
def approvedReq : PaymentRequest :=
  { id := "req_1", requester := "alice", amount := 30, note := "dinner",
    status := "approved" }

/-- The initial store with `approvedReq` sitting in Bob's request list. -/
def doubleResolveStore : Store :=
  setAcc walletInit "bob" { bobInit with requests := [approvedReq] }

/-- Alice with an active lockout window (`locked_until` far in the future). -/
def aliceLocked : Account := { aliceInit with locked_until := 1000000 }

/-- The initial store with Alice locked out. -/
def lockedStore : Store := setAcc walletInit "alice" aliceLocked

/-- A well-formed QR payload naming a payee that does not exist in the
store. -/
def ghostPayload : List (String × JsonVal) :=
  [("payee", JsonVal.str "ghost"), ("amount", JsonVal.num 50),
   ("note", JsonVal.str "")]

/-- The per-account part of the balance invariant: the balance is
non-negative and so is every request amount held against the account. -/
def InvAcc (a : Account) : Prop :=
  0 ≤ a.balance ∧ ∀ r ∈ a.requests, 0 ≤ r.amount

/-- The store-wide balance invariant. -/
def Inv (s : Store) : Prop := ∀ u a, s u = some a → InvAcc a

/-- One invocation of a handler reachable from the app's pages, with the
argument bounds the Streamlit input widgets enforce (`st.number_input`
minimums: deposit and withdrawal at least 1, transfer at least 0.01,
initial deposit at least 0).  The QR payload and its amount are arbitrary
(free-text field).  A resolved request is one of the payer's requests with
status `"pending"` (the dashboard renders approve/decline buttons only for
pending requests).  `handle_bill_split` is called from no page of the
source's router, so it is not a step. -/
inductive Step : Store → Store → Prop where
  | login (s : Store) (username pin : String) (now : ℚ) :
      Step s (handle_login_attempt s username pin now).state
  | create (s : Store) (username display_name pin1 pin2 : String)
      (initial_amount : ℚ) (h : 0 ≤ initial_amount) :
      Step s (handle_account_creation s username display_name pin1 pin2 initial_amount).state
  | deposit (s : Store) (u note : String) (amount : ℚ) (h : 1 ≤ amount) :
      Step s (handle_deposit s u amount note).state
  | withdraw (s : Store) (u category pin : String) (amount : ℚ) (h : 1 ≤ amount) :
      Step s (handle_withdrawal s u amount category pin).state
  | transfer (s : Store) (sender receiver note category pin : String)
      (amount : ℚ) (h : 1/100 ≤ amount) :
      Step s (handle_transfer s sender receiver amount note category pin).state
  | qrPay (s : Store) (payer category pin : String)
      (payload : List (String × JsonVal)) :
      Step s (handle_qr_payment s payer payload category pin).state
  | changePin (s : Store) (user old_pin new_pin1 new_pin2 : String) :
      Step s (handle_pin_change s user old_pin new_pin1 new_pin2).state
  | resolve (s : Store) (payer new_status : String) (req : PaymentRequest)
      (acc : Account) (hacc : s payer = some acc) (hreq : req ∈ acc.requests)
      (hst : req.status = "pending") :
      Step s (handle_payment_request s payer req new_status).state

/-- Stores reachable from the initial mock data through the public
interface. -/
inductive Reachable : Store → Prop where
  | init : Reachable walletInit
  | step {s s' : Store} : Reachable s → Step s s' → Reachable s'

/-! Arithmetic lemmas identifying the computable operations with the field
operations of `ℚ`. -/

theorem qadd_eq (a b : ℚ) : qadd a b = a + b := by
  have ha : (a.den : ℚ) ≠ 0 := by exact_mod_cast a.den_nz
  have hb : (b.den : ℚ) ≠ 0 := by exact_mod_cast b.den_nz
  have ha' : (a : ℚ) * a.den = a.num := Rat.mul_den_eq_num a
  have hb' : (b : ℚ) * b.den = b.num := Rat.mul_den_eq_num b
  rw [qadd, Rat.mkRat_eq_div]
  push_cast
  rw [div_eq_iff (mul_ne_zero ha hb), add_mul, ← ha', ← hb']
  ring

theorem qsub_eq (a b : ℚ) : qsub a b = a - b := by
  have ha : (a.den : ℚ) ≠ 0 := by exact_mod_cast a.den_nz
  have hb : (b.den : ℚ) ≠ 0 := by exact_mod_cast b.den_nz
  have ha' : (a : ℚ) * a.den = a.num := Rat.mul_den_eq_num a
  have hb' : (b : ℚ) * b.den = b.num := Rat.mul_den_eq_num b
  rw [qsub, Rat.mkRat_eq_div]
  push_cast
  rw [div_eq_iff (mul_ne_zero ha hb), sub_mul, ← ha', ← hb']
  ring

theorem qmul_eq (a b : ℚ) : qmul a b = a * b := by
  have ha : (a.den : ℚ) ≠ 0 := by exact_mod_cast a.den_nz
  have hb : (b.den : ℚ) ≠ 0 := by exact_mod_cast b.den_nz
  have ha' : (a : ℚ) * a.den = a.num := Rat.mul_den_eq_num a
  have hb' : (b : ℚ) * b.den = b.num := Rat.mul_den_eq_num b
  rw [qmul, Rat.mkRat_eq_div]
  push_cast
  rw [div_eq_iff (mul_ne_zero ha hb), ← ha', ← hb']
  ring

theorem qdivNat_eq (a : ℚ) (n : ℕ) : qdivNat a n = a / n := by
  have ha : (a.den : ℚ) ≠ 0 := by exact_mod_cast a.den_nz
  have ha' : (a : ℚ) * a.den = a.num := Rat.mul_den_eq_num a
  rcases Nat.eq_zero_or_pos n with h | h
  · subst h
    simp [qdivNat, Rat.mkRat_eq_div]
  · have hn : (n : ℚ) ≠ 0 := by exact_mod_cast h.ne'
    rw [qdivNat, Rat.mkRat_eq_div]
    push_cast
    rw [div_eq_div_iff (mul_ne_zero ha hn) hn, ← ha']
    ring

/-! Lookup lemmas for the store operations. -/

theorem updateAcc_self (s : Store) (u : String) (f : Account → Account) :
    updateAcc s u f u = (s u).map f := by
  simp [updateAcc]

theorem updateAcc_ne (s : Store) {u v : String} (f : Account → Account)
    (h : v ≠ u) : updateAcc s u f v = s v := by
  simp [updateAcc, h]

/-- C1: the claim fails on the code.  `handle_payment_request` never reads
`request["status"]`, so resolving the already-approved `approvedReq` a
second time with decision `"approved"` debits Bob and credits Alice again
and appends fresh transactions — it double-pays instead of being a no-op
or an `AlreadyResolved` error as the claim requires. -/
theorem C1_double_approval_pays_again :
    approvedReq.status = "approved" ∧
    (handle_payment_request doubleResolveStore "bob" approvedReq "approved").status
      = Status.ok ∧
    (handle_payment_request doubleResolveStore "bob" approvedReq "approved").state "bob"
      = some { bobInit with
          balance := 595
          transactions := [create_transaction_record "transfer_out" 30
            "Payment for: dinner" (some "Bills") "alice"]
          requests := [approvedReq] } ∧
    (handle_payment_request doubleResolveStore "bob" approvedReq "approved").state "alice"
      = some { aliceInit with
          balance := 860
          transactions := [create_transaction_record "transfer_in" 30
            "Payment for: dinner" none "bob"] } := by
  decide

/-- C3: the claim fails on the code.  A QR payment whose payload names a
payee absent from the store passes every check, debits the payer, and then
escapes with an uncaught `KeyError` at the credit step — the payer is left
debited, nobody is credited, and no transaction is recorded: a
half-updated state reachable from the free-text payload field. -/
theorem C3_qr_payment_half_update :
    walletInit "ghost" = none ∧
    (handle_qr_payment walletInit "alice" ghostPayload "Food" "1111").status
      = Status.fault "ghost" ∧
    (handle_qr_payment walletInit "alice" ghostPayload "Food" "1111").state "alice"
      = some { aliceInit with balance := 780 } := by
  decide

/-- C2 counterexample: with Alice's lockout window active
(`0 < locked_until = 1000000`, so at time `0` the window is active), a
withdrawal with the correct PIN nevertheless succeeds and changes the
balance — contradicting the claim that a locked account's money-moving
operations fail with `AccountLocked` and leave the state unchanged. -/
theorem C2_locked_withdrawal_succeeds :
    (0 : ℚ) < aliceLocked.locked_until ∧
    lockedStore "alice" = some aliceLocked ∧
    (handle_withdrawal lockedStore "alice" 30 "Food" "1111").status = Status.ok ∧
    (handle_withdrawal lockedStore "alice" 30 "Food" "1111").state "alice"
      = some { aliceLocked with
          balance := 800
          transactions := [create_transaction_record "withdraw" 30
            "Cash withdrawal" (some "Food") "cash"] } := by
  decide

/-- C2 (amended): withdraw, transfer and QR payment verify only that the
supplied PIN equals the account's stored PIN; the lockout window is never
consulted by any money-moving handler.  A wrong PIN fails with
`Incorrect PIN` without touching the store, whatever the lockout state,
and a correct PIN proceeds even while `now < locked_until`. -/
theorem C2_money_ops_check_pin_only
    (s : Store) (u receiver note category pin : String) (amount : ℚ)
    (payload : List (String × JsonVal)) (acc : Account)
    (hu : s u = some acc) :
    (pin ≠ acc.pin →
      handle_withdrawal s u amount category pin = ⟨s, Status.errIncorrectPin⟩ ∧
      handle_transfer s u receiver amount note category pin = ⟨s, Status.errIncorrectPin⟩) ∧
    (∀ amt : ℚ, pyFloat ((jsonGet payload "amount").getD (JsonVal.num 0)) = some amt →
      pyTruthy (jsonGet payload "payee") = true →
      0 < amt →
      jsonEqStr ((jsonGet payload "payee").getD JsonVal.null) u = false →
      ¬ acc.balance < amt →
      pin ≠ acc.pin →
      handle_qr_payment s u payload category pin = ⟨s, Status.errIncorrectPin⟩) ∧
    (pin = acc.pin → ¬ acc.balance < amount → ∀ now : ℚ, now < acc.locked_until →
      (handle_withdrawal s u amount category pin).status = Status.ok) := by
  refine ⟨fun hpin => ⟨?_, ?_⟩, fun amt hamt htr hpos hself hfunds hpin => ?_, fun hpin hfunds now hlock => ?_⟩
  · simp only [handle_withdrawal, hu]
    rw [if_neg hpin]
  · simp only [handle_transfer, hu]
    rw [if_neg hpin]
  · simp only [handle_qr_payment, hu, hamt]
    rw [if_neg (not_not_intro ⟨htr, hpos⟩), if_neg (by simp [hself]), if_neg hfunds,
        if_pos hpin]
  · simp only [handle_withdrawal, hu]
    rw [if_pos hpin, if_neg hfunds]

/-- C10: `handle_deposit` performs no validation at all: for every
rational amount — zero and negative values included — it unconditionally
adds the amount to the account's balance and appends exactly one `deposit`
transaction with counterparty `"self"`; a negative deposit strictly
decreases the balance. -/
theorem C10_deposit_unvalidated
    (s : Store) (u note : String) (amount : ℚ) (acc : Account)
    (hu : s u = some acc) :
    (handle_deposit s u amount note).status = Status.ok ∧
    (handle_deposit s u amount note).state u =
      some { acc with
        balance := acc.balance + amount
        transactions := acc.transactions ++
          [create_transaction_record "deposit" amount
            (if note = "" then "Self Deposit" else note) none "self"] } ∧
    (amount < 0 → acc.balance + amount < acc.balance) := by
  refine ⟨?_, ?_, fun hneg => by linarith⟩
  · simp only [handle_deposit, hu]
  · simp only [handle_deposit, hu, updateAcc_self, Option.map_some']
    rw [qadd_eq]

/-- C6: the lockout state machine of `handle_login_attempt`: while
`now < locked_until` every attempt fails as locked with the store
untouched; otherwise a correct PIN succeeds and resets `failed_attempts`
to 0; a wrong PIN increments the counter, and when the counter thereby
reaches exactly `MAX_LOGIN_ATTEMPTS = 3` the account is locked until
exactly `now + LOCKOUT_DURATION_SECONDS = now + 60`; below the threshold
the attempt fails carrying the attempts remaining. -/
theorem C6_lockout_state_machine
    (s : Store) (u pin : String) (now : ℚ) (acc : Account)
    (hu : s u = some acc) :
    (now < acc.locked_until →
      handle_login_attempt s u pin now =
        ⟨s, Status.errLockedRemaining (qfloor (qsub acc.locked_until now))⟩) ∧
    (¬ now < acc.locked_until → acc.pin = pin →
      (handle_login_attempt s u pin now).status = Status.ok ∧
      (handle_login_attempt s u pin now).state u =
        some { acc with failed_attempts := 0 }) ∧
    (¬ now < acc.locked_until → acc.pin ≠ pin →
      (acc.failed_attempts + 1 = MAX_LOGIN_ATTEMPTS →
        (handle_login_attempt s u pin now).status = Status.errLockedNow ∧
        (handle_login_attempt s u pin now).state u =
          some { acc with
            failed_attempts := MAX_LOGIN_ATTEMPTS
            locked_until := now + LOCKOUT_DURATION_SECONDS }) ∧
      (acc.failed_attempts + 1 < MAX_LOGIN_ATTEMPTS →
        (handle_login_attempt s u pin now).status =
          Status.errWrongPinRemaining (MAX_LOGIN_ATTEMPTS - (acc.failed_attempts + 1)) ∧
        (handle_login_attempt s u pin now).state u =
          some { acc with failed_attempts := acc.failed_attempts + 1 })) := by
  refine ⟨fun hlock => ?_, fun hlock hpin => ?_,
    fun hlock hpin => ⟨fun h3 => ?_, fun hlt => ?_⟩⟩
  · simp only [handle_login_attempt, hu]
    rw [if_pos hlock]
  · simp only [handle_login_attempt, hu]
    rw [if_neg hlock, if_pos hpin]
    refine ⟨rfl, ?_⟩
    simp only [updateAcc_self, hu, Option.map_some']
  · simp only [handle_login_attempt, hu]
    rw [if_neg hlock, if_neg hpin, if_pos (le_of_eq h3.symm)]
    refine ⟨rfl, ?_⟩
    simp only [updateAcc_self, hu, Option.map_some']
    rw [h3, qadd_eq]
  · simp only [handle_login_attempt, hu]
    rw [if_neg hlock, if_neg hpin, if_neg (by omega)]
    refine ⟨rfl, ?_⟩
    simp only [updateAcc_self, hu, Option.map_some']

/-- C7: for withdrawal and transfer with the correct PIN, the operation
fails with insufficient funds exactly when the amount exceeds the debited
balance — an amount equal to the balance succeeds — and on failure the
store is returned unchanged; on success the debited balance decreases by
exactly the amount and exactly one `withdraw` record (counterparty
`"cash"`) or `transfer_out` record is appended to the debited account. -/
theorem C7_insufficient_funds_boundary
    (s : Store) (u receiver note category pin : String) (amount : ℚ)
    (acc : Account) (hu : s u = some acc) (hpin : pin = acc.pin) :
    ((acc.balance < amount →
        handle_withdrawal s u amount category pin = ⟨s, Status.errInsufficientBalance⟩) ∧
     (amount ≤ acc.balance →
        (handle_withdrawal s u amount category pin).status = Status.ok ∧
        (handle_withdrawal s u amount category pin).state u =
          some { acc with
            balance := acc.balance - amount
            transactions := acc.transactions ++
              [create_transaction_record "withdraw" amount "Cash withdrawal"
                (some category) "cash"] })) ∧
    (receiver ≠ u →
     ((acc.balance < amount →
        handle_transfer s u receiver amount note category pin = ⟨s, Status.errInsufficientFunds⟩) ∧
      (amount ≤ acc.balance → ∀ racc, s receiver = some racc →
        (handle_transfer s u receiver amount note category pin).status = Status.ok ∧
        (handle_transfer s u receiver amount note category pin).state u =
          some { acc with
            balance := acc.balance - amount
            transactions := acc.transactions ++
              [create_transaction_record "transfer_out" amount note
                (some category) receiver] }))) := by
  refine ⟨⟨fun hover => ?_, fun hle => ?_⟩,
    fun hne => ⟨fun hover => ?_, fun hle racc hracc => ?_⟩⟩
  · simp only [handle_withdrawal, hu]
    rw [if_pos hpin, if_pos hover]
  · simp only [handle_withdrawal, hu]
    rw [if_pos hpin, if_neg (not_lt.mpr hle)]
    refine ⟨rfl, ?_⟩
    simp only [updateAcc_self, hu, Option.map_some']
    rw [qsub_eq]
  · simp only [handle_transfer, hu]
    rw [if_pos hpin, if_pos hover]
  · simp only [handle_transfer, hu]
    rw [if_pos hpin, if_neg (not_lt.mpr hle), updateAcc_ne _ _ hne, hracc]
    refine ⟨rfl, ?_⟩
    simp only [updateAcc_ne _ _ (Ne.symm hne), updateAcc_self, hu, Option.map_some']
    rw [qsub_eq]

/-- C4: for every completed transfer and every completed QR payment
between two existing distinct accounts, the sender gains exactly one
`_out` transaction and the receiver exactly one matching `_in` transaction
of the same amount, and the sum of the two balances is unchanged by the
operation (closed-system conservation). -/
theorem C4_conservation
    (s : Store) (sender receiver note category pin qnote : String) (amount : ℚ)
    (sacc racc : Account) (hs : s sender = some sacc) (hr : s receiver = some racc)
    (hne : receiver ≠ sender) (hpin : pin = sacc.pin) (hamt : amount ≤ sacc.balance)
    (payload : List (String × JsonVal))
    (hpayee : jsonGet payload "payee" = some (JsonVal.str receiver))
    (hpamt : pyFloat ((jsonGet payload "amount").getD (JsonVal.num 0)) = some amount)
    (hqnote : (jsonGet payload "note").getD (JsonVal.str "") = JsonVal.str qnote)
    (hrne : receiver ≠ "") (hpos : 0 < amount) :
    ((handle_transfer s sender receiver amount note category pin).status = Status.ok ∧
     (handle_transfer s sender receiver amount note category pin).state sender =
       some { sacc with
         balance := sacc.balance - amount
         transactions := sacc.transactions ++
           [create_transaction_record "transfer_out" amount note (some category) receiver] } ∧
     (handle_transfer s sender receiver amount note category pin).state receiver =
       some { racc with
         balance := racc.balance + amount
         transactions := racc.transactions ++
           [create_transaction_record "transfer_in" amount note none sender] } ∧
     (create_transaction_record "transfer_out" amount note (some category) receiver).amount =
       (create_transaction_record "transfer_in" amount note none sender).amount ∧
     (sacc.balance - amount) + (racc.balance + amount) = sacc.balance + racc.balance) ∧
    ((handle_qr_payment s sender payload category pin).status = Status.ok ∧
     (handle_qr_payment s sender payload category pin).state sender =
       some { sacc with
         balance := sacc.balance - amount
         transactions := sacc.transactions ++
           [create_transaction_record "qr_out" amount qnote (some category) receiver] } ∧
     (handle_qr_payment s sender payload category pin).state receiver =
       some { racc with
         balance := racc.balance + amount
         transactions := racc.transactions ++
           [create_transaction_record "qr_in" amount qnote none sender] } ∧
     (create_transaction_record "qr_out" amount qnote (some category) receiver).amount =
       (create_transaction_record "qr_in" amount qnote none sender).amount) := by
  have htruthy : pyTruthy (jsonGet payload "payee") = true := by
    rw [hpayee]
    simp [pyTruthy, hrne]
  have hself : jsonEqStr ((jsonGet payload "payee").getD JsonVal.null) sender = false := by
    rw [hpayee]
    simp [jsonEqStr, hne]
  constructor
  · simp only [handle_transfer, hs]
    rw [if_pos hpin, if_neg (not_lt.mpr hamt), updateAcc_ne _ _ hne, hr]
    refine ⟨rfl, ?_, ?_, rfl, by ring⟩
    · simp only [updateAcc_ne _ _ (Ne.symm hne), updateAcc_self, hs, Option.map_some']
      rw [qsub_eq]
    · simp only [updateAcc_ne _ _ hne, updateAcc_self, hr, Option.map_some']
      rw [qadd_eq]
  · simp only [handle_qr_payment, hs, hpamt]
    rw [if_neg (not_not_intro ⟨htruthy, hpos⟩), if_neg (by rw [hself]; exact Bool.false_ne_true),
        if_neg (not_lt.mpr hamt), if_neg (not_not_intro hpin), hpayee]
    simp only [Option.getD_some, jsonKey]
    rw [updateAcc_ne _ _ hne, hr, hqnote]
    simp only [pyStr]
    refine ⟨by trivial, ?_, ?_, by trivial⟩
    · simp only [updateAcc_ne _ _ (Ne.symm hne), updateAcc_self, hs, Option.map_some']
      rw [qsub_eq]
    · simp only [updateAcc_ne _ _ hne, updateAcc_self, hr, Option.map_some']
      rw [qadd_eq]

/-- C9: QR payload round trip: for every payee username, positive amount
and note, the payload produced by `generateQrPayload` decodes inside
`handle_qr_payment` (field extraction `qrExtract`, truthiness guard, key
conversion and note stringification) back to exactly the same payee,
amount and note. -/
theorem C9_qr_payload_roundtrip (payee : String) (amount : ℚ) (note : String)
    (hp : payee ≠ "") (ha : 0 < amount) :
    qrExtract (generateQrPayload payee amount note) =
      (some (JsonVal.str payee), some amount, JsonVal.str note) ∧
    (pyTruthy (jsonGet (generateQrPayload payee amount note) "payee") = true ∧ 0 < amount) ∧
    jsonKey (JsonVal.str payee) = some payee ∧
    pyStr (JsonVal.str note) = note := by
  refine ⟨?_, ⟨?_, ha⟩, rfl, rfl⟩
  · simp [qrExtract, generateQrPayload, jsonGet, pyFloat]
  · simp [generateQrPayload, jsonGet, pyTruthy, hp]

theorem updateAcc_isSome (s : Store) (u v : String) (f : Account → Account) :
    ((updateAcc s u f) v).isSome = (s v).isSome := by
  unfold updateAcc
  split
  · rename_i h
    subst h
    cases s v <;> simp
  · rfl

theorem appendRequests_spec (req : PaymentRequest) :
    ∀ (users : List String) (s : Store), users.Nodup →
    (∀ u ∈ users, (s u).isSome) →
    (appendRequests s users req).status = Status.ok ∧
    (∀ u ∈ users, ∀ a, s u = some a →
      (appendRequests s users req).state u = some { a with requests := a.requests ++ [req] }) ∧
    (∀ u, u ∉ users → (appendRequests s users req).state u = s u) := by
  intro users
  induction users with
  | nil =>
    intro s _ _
    exact ⟨rfl, by simp, fun u _ => rfl⟩
  | cons v rest ih =>
    intro s hnd hex
    obtain ⟨a0, ha0⟩ := Option.isSome_iff_exists.mp (hex v (by simp))
    have hvrest : v ∉ rest := (List.nodup_cons.mp hnd).1
    have hrec := ih (updateAcc s v (fun a => { a with requests := a.requests ++ [req] }))
      (List.nodup_cons.mp hnd).2
      (fun u hu => by
        rw [updateAcc_isSome]
        exact hex u (List.mem_cons_of_mem _ hu))
    have hred : appendRequests s (v :: rest) req =
        appendRequests (updateAcc s v (fun a => { a with requests := a.requests ++ [req] }))
          rest req := by
      conv_lhs => rw [appendRequests]
      rw [ha0]
    refine ⟨by rw [hred]; exact hrec.1, ?_, ?_⟩
    · intro u hu a ha
      rcases List.mem_cons.mp hu with rfl | hu'
      · rw [ha0] at ha
        injection ha with ha
        subst ha
        rw [hred, hrec.2.2 u hvrest, updateAcc_self, ha0, Option.map_some']
      · have hune : u ≠ v := fun h => hvrest (h ▸ hu')
        rw [hred]
        refine hrec.2.1 u hu' a ?_
        rw [updateAcc_ne _ _ hune]
        exact ha
    · intro u hu
      have hunev : u ≠ v := fun h => hu (h ▸ List.mem_cons_self v rest)
      have hurest : u ∉ rest := fun h => hu (List.mem_cons_of_mem _ h)
      rw [hred, hrec.2.2 u hurest, updateAcc_ne _ _ hunev]

theorem roundHalfEven_intCast (z : ℤ) : roundHalfEven ((z : ℤ) : ℚ) = z := by
  unfold roundHalfEven qfloor
  simp [Rat.num_intCast, Rat.den_intCast, Int.fdiv_one]

theorem round2_idem (q : ℚ) : round2 (round2 q) = round2 q := by
  have h : qmul (round2 q) 100 = ((roundHalfEven (qmul q 100) : ℤ) : ℚ) := by
    rw [qmul_eq]
    rw [show round2 q = mkRat (roundHalfEven (qmul q 100)) 100 from rfl]
    rw [Rat.mkRat_eq_div]
    push_cast
    field_simp
  conv_lhs => rw [round2, h, roundHalfEven_intCast]
  rfl

/-- C8: `handle_bill_split` warns and changes nothing on an empty payer
list; for every non-empty list of distinct existing payers it computes
`share = round(totalAmount / (len(payers) + 1), 2)` and appends to each
payer's request list exactly one new pending request with that requester,
amount and note, while every other account — and hence every balance — is
untouched. -/
theorem C8_bill_split
    (s : Store) (requester note reqId : String) (total_amount : ℚ)
    (users : List String)
    (hnd : users.Nodup) (hex : ∀ u ∈ users, (s u).isSome)
    (hnote : pyStrip note = note) :
    handle_bill_split s requester total_amount note [] reqId =
      ⟨s, Status.warnEmptyPayerSet⟩ ∧
    (users ≠ [] →
      (handle_bill_split s requester total_amount note users reqId).status = Status.ok ∧
      (∀ u ∈ users, ∀ a, s u = some a →
        (handle_bill_split s requester total_amount note users reqId).state u =
          some { a with requests := a.requests ++
            [{ id := reqId, requester := requester,
               amount := round2 (qdivNat total_amount (users.length + 1)),
               note := note, status := "pending" }] }) ∧
      (∀ u, u ∉ users →
        (handle_bill_split s requester total_amount note users reqId).state u = s u) ∧
      qdivNat total_amount (users.length + 1) = total_amount / ((users.length : ℚ) + 1)) := by
  refine ⟨rfl, fun hne => ?_⟩
  have hreq : create_payment_request_record reqId requester
      (round2 (qdivNat total_amount (users.length + 1))) note =
      { id := reqId, requester := requester,
        amount := round2 (qdivNat total_amount (users.length + 1)),
        note := note, status := "pending" } := by
    unfold create_payment_request_record
    rw [round2_idem, hnote]
  have hbs : handle_bill_split s requester total_amount note users reqId =
      appendRequests s users (create_payment_request_record reqId requester
        (round2 (qdivNat total_amount (users.length + 1))) note) := by
    unfold handle_bill_split
    rw [if_neg hne]
  have hspec := appendRequests_spec (create_payment_request_record reqId requester
      (round2 (qdivNat total_amount (users.length + 1))) note) users s hnd hex
  refine ⟨by rw [hbs]; exact hspec.1, ?_, ?_, ?_⟩
  · intro u hu a ha
    rw [hbs, hspec.2.1 u hu a ha, hreq]
  · intro u hu
    rw [hbs]
    exact hspec.2.2 u hu
  · rw [qdivNat_eq]
    push_cast
    ring

theorem inv_update {s : Store} {u : String} {f : Account → Account}
    (hs : Inv s) (hf : ∀ a, s u = some a → InvAcc (f a)) :
    Inv (updateAcc s u f) := by
  intro v b hb
  simp only [updateAcc] at hb
  by_cases hv : v = u
  · rw [if_pos hv] at hb
    cases hsu : s u with
    | none => rw [hsu] at hb; cases hb
    | some a =>
      rw [hsu, Option.map_some'] at hb
      injection hb with hb
      subst hb
      exact hf a hsu
  · rw [if_neg hv] at hb
    exact hs v b hb

theorem inv_set {s : Store} {u : String} {a : Account}
    (hs : Inv s) (ha : InvAcc a) : Inv (setAcc s u a) := by
  intro v b hb
  simp only [setAcc] at hb
  by_cases hv : v = u
  · rw [if_pos hv] at hb
    injection hb with hb
    subst hb
    exact ha
  · rw [if_neg hv] at hb
    exact hs v b hb

theorem inv_update_txns {s : Store} (hs : Inv s) (u : String)
    (g : Account → List Txn) :
    Inv (updateAcc s u (fun a => { a with transactions := g a })) :=
  inv_update hs (fun a ha => ⟨(hs _ _ ha).1, (hs _ _ ha).2⟩)

theorem inv_update_credit {s : Store} (hs : Inv s) (u : String) {amount : ℚ}
    (h0 : 0 ≤ amount) :
    Inv (updateAcc s u (fun a => { a with balance := qadd a.balance amount })) :=
  inv_update hs (fun a ha =>
    ⟨by show 0 ≤ qadd a.balance amount
        rw [qadd_eq]
        exact add_nonneg (hs _ _ ha).1 h0,
     (hs _ _ ha).2⟩)

theorem inv_update_debit {s : Store} (hs : Inv s) (u : String) {amount : ℚ}
    (hle : ∀ a, s u = some a → amount ≤ a.balance) :
    Inv (updateAcc s u (fun a => { a with balance := qsub a.balance amount })) :=
  inv_update hs (fun a ha =>
    ⟨by show 0 ≤ qsub a.balance amount
        rw [qsub_eq, sub_nonneg]
        exact hle a ha,
     (hs _ _ ha).2⟩)

theorem setStatusFirst_amount_nonneg {id st : String} :
    ∀ {l : List PaymentRequest}, (∀ r ∈ l, 0 ≤ r.amount) →
      ∀ r ∈ setStatusFirst id st l, 0 ≤ r.amount := by
  intro l
  induction l with
  | nil =>
    intro _ r hr
    cases hr
  | cons x xs ih =>
    intro h r hr
    simp only [setStatusFirst] at hr
    by_cases hid : x.id = id
    · rw [if_pos hid] at hr
      rcases List.mem_cons.mp hr with rfl | hx
      · exact h x (List.mem_cons_self _ _)
      · exact h r (List.mem_cons_of_mem _ hx)
    · rw [if_neg hid] at hr
      rcases List.mem_cons.mp hr with rfl | hx
      · exact h _ (List.mem_cons_self _ _)
      · exact ih (fun r hr => h r (List.mem_cons_of_mem _ hr)) r hx

theorem inv_update_requests_status {s : Store} (hs : Inv s) (u id st : String) :
    Inv (updateAcc s u (fun a => { a with requests := setStatusFirst id st a.requests })) :=
  inv_update hs (fun a ha => ⟨(hs _ _ ha).1, setStatusFirst_amount_nonneg (hs _ _ ha).2⟩)

theorem inv_handle_login_attempt {s : Store} (hs : Inv s)
    (username pin : String) (now : ℚ) :
    Inv (handle_login_attempt s username pin now).state := by
  unfold handle_login_attempt
  cases h : s username with
  | none => exact hs
  | some acc =>
    dsimp only
    split
    · exact hs
    · split
      · exact inv_update hs (fun a ha => ⟨(hs _ _ ha).1, (hs _ _ ha).2⟩)
      · split
        · exact inv_update hs (fun a ha => ⟨(hs _ _ ha).1, (hs _ _ ha).2⟩)
        · exact inv_update hs (fun a ha => ⟨(hs _ _ ha).1, (hs _ _ ha).2⟩)

theorem inv_handle_account_creation {s : Store} (hs : Inv s)
    (username display_name pin1 pin2 : String) {initial_amount : ℚ}
    (h0 : 0 ≤ initial_amount) :
    Inv (handle_account_creation s username display_name pin1 pin2 initial_amount).state := by
  unfold handle_account_creation
  split
  · exact hs
  · split
    · exact hs
    · split
      · exact hs
      · split
        · exact hs
        · exact inv_set hs ⟨h0, by simp⟩

theorem inv_handle_deposit {s : Store} (hs : Inv s) (u note : String)
    {amount : ℚ} (h0 : 0 ≤ amount) :
    Inv (handle_deposit s u amount note).state := by
  unfold handle_deposit
  cases h : s u with
  | none => exact hs
  | some acc =>
    exact inv_update hs (fun a ha =>
      ⟨by show 0 ≤ qadd a.balance amount
          rw [qadd_eq]
          exact add_nonneg (hs _ _ ha).1 h0,
       (hs _ _ ha).2⟩)

theorem inv_handle_withdrawal {s : Store} (hs : Inv s)
    (u category pin : String) (amount : ℚ) :
    Inv (handle_withdrawal s u amount category pin).state := by
  unfold handle_withdrawal
  cases h : s u with
  | none => exact hs
  | some acc =>
    dsimp only
    split
    · split
      · exact hs
      · rename_i hfunds
        refine inv_update hs (fun a ha => ⟨?_, (hs _ _ ha).2⟩)
        show 0 ≤ qsub a.balance amount
        rw [qsub_eq, sub_nonneg]
        rw [h] at ha
        injection ha with ha
        subst ha
        exact not_lt.mp hfunds
    · exact hs

theorem inv_handle_transfer {s : Store} (hs : Inv s)
    (sender receiver note category pin : String) {amount : ℚ}
    (h0 : 0 ≤ amount) :
    Inv (handle_transfer s sender receiver amount note category pin).state := by
  unfold handle_transfer
  cases h : s sender with
  | none => exact hs
  | some acc =>
    dsimp only
    split
    · split
      · exact hs
      · rename_i hfunds
        have h1 : Inv (updateAcc s sender
            (fun a => { a with balance := qsub a.balance amount })) := by
          refine inv_update_debit hs sender (fun a ha => ?_)
          rw [h] at ha
          injection ha with ha
          subst ha
          exact not_lt.mp hfunds
        split
        · exact h1
        · exact inv_update_txns (inv_update_txns (inv_update_credit h1 receiver h0) sender _) receiver _
    · exact hs

theorem inv_handle_qr_payment {s : Store} (hs : Inv s)
    (payer category pin : String) (payload : List (String × JsonVal)) :
    Inv (handle_qr_payment s payer payload category pin).state := by
  unfold handle_qr_payment
  cases h : s payer with
  | none => exact hs
  | some acc =>
    dsimp only
    cases hf : pyFloat ((jsonGet payload "amount").getD (JsonVal.num 0)) with
    | none => exact hs
    | some amount =>
      dsimp only
      split
      · exact hs
      · rename_i hguard
        have hpos : 0 < amount := (not_not.mp hguard).2
        split
        · exact hs
        · split
          · exact hs
          · split
            · exact hs
            · rename_i hfunds hpin
              have h1 : Inv (updateAcc s payer
                  (fun a => { a with balance := qsub a.balance amount })) := by
                refine inv_update_debit hs payer (fun a ha => ?_)
                rw [h] at ha
                injection ha with ha
                subst ha
                exact not_lt.mp hfunds
              split
              · exact h1
              · rename_i payee hkey
                cases h2 : (updateAcc s payer
                    (fun a => { a with balance := qsub a.balance amount })) payee with
                | none => exact h1
                | some racc =>
                  exact inv_update_txns (inv_update_txns (inv_update_credit h1 payee hpos.le) payer _) payee _

theorem inv_handle_pin_change {s : Store} (hs : Inv s)
    (user old_pin new_pin1 new_pin2 : String) :
    Inv (handle_pin_change s user old_pin new_pin1 new_pin2).state := by
  unfold handle_pin_change
  cases h : s user with
  | none => exact hs
  | some acc =>
    dsimp only
    split
    · exact hs
    · split
      · exact hs
      · split
        · exact hs
        · exact inv_update hs (fun a ha => ⟨(hs _ _ ha).1, (hs _ _ ha).2⟩)

theorem inv_handle_payment_request {s : Store} (hs : Inv s)
    (payer_username new_status : String) (request : PaymentRequest)
    (h0 : 0 ≤ request.amount) :
    Inv (handle_payment_request s payer_username request new_status).state := by
  unfold handle_payment_request
  cases h : s payer_username with
  | none => exact hs
  | some payer_data =>
    dsimp only
    cases h2 : s request.requester with
    | none => exact hs
    | some req_data =>
      dsimp only
      split
      · split
        · rename_i hfunds
          have h1 : Inv (updateAcc s payer_username
              (fun a => { a with balance := qsub a.balance request.amount })) := by
            refine inv_update_debit hs payer_username (fun a ha => ?_)
            rw [h] at ha
            injection ha with ha
            subst ha
            exact hfunds
          exact inv_update_requests_status
            (inv_update_txns (inv_update_txns (inv_update_credit h1 request.requester h0)
              payer_username _) request.requester _) payer_username request.id new_status
        · exact hs
      · exact inv_update_requests_status hs payer_username request.id new_status

theorem step_preserves_inv {s s' : Store} (hs : Inv s) (h : Step s s') : Inv s' := by
  cases h with
  | login username pin now => exact inv_handle_login_attempt hs username pin now
  | create username display_name pin1 pin2 initial_amount h0 =>
    exact inv_handle_account_creation hs username display_name pin1 pin2 h0
  | deposit u note amount h1 =>
    exact inv_handle_deposit hs u note (le_trans zero_le_one h1)
  | withdraw u category pin amount h1 =>
    exact inv_handle_withdrawal hs u category pin amount
  | transfer sender receiver note category pin amount h1 =>
    exact inv_handle_transfer hs sender receiver note category pin
      (le_trans (by norm_num) h1)
  | qrPay payer category pin payload =>
    exact inv_handle_qr_payment hs payer category pin payload
  | changePin user old_pin new_pin1 new_pin2 =>
    exact inv_handle_pin_change hs user old_pin new_pin1 new_pin2
  | resolve payer new_status req acc hacc hreq hst =>
    exact inv_handle_payment_request hs payer new_status req ((hs _ _ hacc).2 req hreq)

theorem inv_walletInit : Inv walletInit := by
  intro u a h
  unfold walletInit at h
  split at h
  · injection h with h
    subst h
    exact ⟨by decide, by simp [aliceInit]⟩
  · split at h
    · injection h with h
      subst h
      exact ⟨by decide, by simp [bobInit]⟩
    · split at h
      · injection h with h
        subst h
        exact ⟨by decide, by simp [charlieInit]⟩
      · split at h
        · injection h with h
          subst h
          exact ⟨by decide, by simp [dishaInit]⟩
        · cases h

theorem reachable_inv {s : Store} (h : Reachable s) : Inv s := by
  induction h with
  | init => exact inv_walletInit
  | step _ hstep ih => exact step_preserves_inv ih hstep

/-- C5: every store reachable from the initial mock data through the
public interface (login, account creation, deposit, withdrawal, transfer,
QR payment, PIN change, request resolution — with the input bounds the
pages enforce) keeps every account's balance non-negative. -/
theorem C5_balance_nonneg {s : Store} (h : Reachable s) (u : String)
    (a : Account) (hu : s u = some a) : 0 ≤ a.balance :=
  (reachable_inv h u a hu).1

/-- Witness for C2 at a concrete locked account. -/
theorem C2_money_ops_check_pin_only_witness :
    handle_withdrawal lockedStore "alice" 30 "Food" "9999" =
      ⟨lockedStore, Status.errIncorrectPin⟩ ∧
    (handle_withdrawal lockedStore "alice" 30 "Food" "1111").status = Status.ok :=
  ⟨((C2_money_ops_check_pin_only lockedStore "alice" "bob" "" "Food" "9999" 30 []
      aliceLocked (by decide)).1 (by decide)).1,
   (C2_money_ops_check_pin_only lockedStore "alice" "bob" "" "Food" "1111" 30 []
      aliceLocked (by decide)).2.2 (by decide) (by decide) 0 (by decide)⟩

/-- Witness for C4 at a concrete transfer and QR payment of 100 from Alice
to Bob. -/
theorem C4_conservation_witness :
    (handle_transfer walletInit "alice" "bob" 100 "hi" "Food" "1111").status = Status.ok ∧
    (handle_qr_payment walletInit "alice" (generateQrPayload "bob" 100 "qq")
      "Food" "1111").status = Status.ok ∧
    (aliceInit.balance - 100) + (bobInit.balance + 100) =
      aliceInit.balance + bobInit.balance :=
  have h := C4_conservation walletInit "alice" "bob" "hi" "Food" "1111" "qq" 100
    aliceInit bobInit (by decide) (by decide) (by decide) (by decide) (by decide)
    (generateQrPayload "bob" 100 "qq") (by decide) (by decide) (by decide)
    (by decide) (by decide)
  ⟨h.1.1, h.2.1, h.1.2.2.2.2⟩

/-- Witness for C5 at the store reached by one withdrawal of 30 from
Alice. -/
theorem C5_balance_nonneg_witness :
    (handle_withdrawal walletInit "alice" 30 "Food" "1111").state "alice" =
      some { aliceInit with
        balance := 800
        transactions := [create_transaction_record "withdraw" 30
          "Cash withdrawal" (some "Food") "cash"] } ∧
    (0 : ℚ) ≤ ({ aliceInit with
        balance := 800
        transactions := [create_transaction_record "withdraw" 30
          "Cash withdrawal" (some "Food") "cash"] } : Account).balance :=
  ⟨by decide,
   C5_balance_nonneg
     (Reachable.step Reachable.init
       (Step.withdraw walletInit "alice" "Food" "1111" 30 (by decide)))
     "alice" _ (by decide)⟩

/-- Witness for C6: Charlie's third consecutive wrong PIN at time 5 locks
the account until 65. -/
theorem C6_lockout_state_machine_witness :
    (handle_login_attempt (setAcc walletInit "charlie"
        { charlieInit with failed_attempts := 2 }) "charlie" "0000" 5).status
      = Status.errLockedNow ∧
    (handle_login_attempt (setAcc walletInit "charlie"
        { charlieInit with failed_attempts := 2 }) "charlie" "0000" 5).state "charlie"
      = some { charlieInit with
          failed_attempts := MAX_LOGIN_ATTEMPTS
          locked_until := 5 + LOCKOUT_DURATION_SECONDS } :=
  ((C6_lockout_state_machine (setAcc walletInit "charlie"
      { charlieInit with failed_attempts := 2 }) "charlie" "0000" 5
      { charlieInit with failed_attempts := 2 } (by decide)).2.2
    (by decide) (by decide)).1 (by decide)

/-- Witness for C7: a transfer of 900 from a balance of 830 fails leaving
the store unchanged, and a withdrawal of the full balance succeeds. -/
theorem C7_insufficient_funds_boundary_witness :
    handle_transfer walletInit "alice" "bob" 900 "hi" "Food" "1111" =
      ⟨walletInit, Status.errInsufficientFunds⟩ ∧
    (handle_withdrawal walletInit "alice" 830 "Food" "1111").status = Status.ok :=
  have h := C7_insufficient_funds_boundary walletInit "alice" "bob" "hi" "Food"
    "1111" 900 aliceInit (by decide) (by decide)
  have h2 := C7_insufficient_funds_boundary walletInit "alice" "bob" "hi" "Food"
    "1111" 830 aliceInit (by decide) (by decide)
  ⟨(h.2 (by decide)).1 (by decide), (h2.1.2 (by decide)).1⟩

/-- Witness for C8: splitting 90 among Alice and the payers Bob and
Charlie gives each payer a pending request of 30. -/
theorem C8_bill_split_witness :
    (handle_bill_split walletInit "alice" 90 "trip" ["bob", "charlie"] "req_7").state "bob"
      = some { bobInit with requests := bobInit.requests ++
          [{ id := "req_7", requester := "alice",
             amount := round2 (qdivNat 90 (["bob", "charlie"].length + 1)),
             note := "trip", status := "pending" }] } ∧
    round2 (qdivNat 90 (["bob", "charlie"].length + 1)) = 30 :=
  have h := C8_bill_split walletInit "alice" "trip" "req_7" 90 ["bob", "charlie"]
    (by decide) (by decide) (by decide)
  ⟨(h.2 (by decide)).2.1 "bob" (by decide) bobInit (by decide), by decide⟩

/-- Witness for C9 at a concrete payload. -/
theorem C9_qr_payload_roundtrip_witness :
    qrExtract (generateQrPayload "alice" 25 "coffee") =
      (some (JsonVal.str "alice"), some 25, JsonVal.str "coffee") :=
  (C9_qr_payload_roundtrip "alice" 25 "coffee" (by decide) (by decide)).1

/-- Witness for C10: a deposit of -50 into Alice's account succeeds and
decreases the balance. -/
theorem C10_deposit_unvalidated_witness :
    (handle_deposit walletInit "alice" (-50) "").status = Status.ok ∧
    (handle_deposit walletInit "alice" (-50) "").state "alice" =
      some { aliceInit with
        balance := aliceInit.balance + (-50)
        transactions := aliceInit.transactions ++
          [create_transaction_record "deposit" (-50)
            (if "" = "" then "Self Deposit" else "") none "self"] } ∧
    ((-50 : ℚ) < 0 → aliceInit.balance + (-50) < aliceInit.balance) :=
  C10_deposit_unvalidated walletInit "alice" "" (-50) aliceInit (by decide)

end Wallet
